import Mathlib

/-!
Verification of the state-caching and transition-tracking layer of an
EVM-style execution engine (`crates/revm/src/db/states/cache.rs`).

Machine words are modelled as `Nat` (addresses, 256-bit words, code hashes,
bytecode identities); the concurrent maps (`DashMap`) are modelled as
association lists with replace-on-insert semantics; a Rust panic is modelled
as the `none` result of an `Option`-valued function.

The account-lifecycle operations of `CacheAccount` as well as the
execution-result `Account`/`AccountInfo` shapes live outside the embedded
source file; they are modelled from the specification and marked as such.
-/

/-- Association-list lookup: first binding for the key, if any.
Models the lookup side of the `DashMap`s keyed by address / code hash. -/
def lookupAssoc {α : Type} (l : List (Nat × α)) (k : Nat) : Option α :=
  match l with
  | [] => none
  | (k', v) :: rest => if k' = k then some v else lookupAssoc rest k

/-- Association-list insert that replaces an existing binding for the key
(last insert wins), appending a new binding otherwise.  Models
`DashMap::insert`. -/
def insertAssoc {α : Type} (l : List (Nat × α)) (k : Nat) (v : α) : List (Nat × α) :=
  match l with
  | [] => [(k, v)]
  | (k', v') :: rest => if k' = k then (k, v) :: rest else (k', v') :: insertAssoc rest k v

/-- Keccak-256 hash of the empty bytecode, the reserved "no code" sentinel. -/
def KECCAK_EMPTY : Nat := 0xc5d2460186f7233c927e7db2dcc703c0e500b653ca82273b7bfad8045d85a470

/-- Modelled from the spec: `AccountInfo` (balance, nonce, code hash,
optional inlined bytecode); the concrete struct lives in
`revm_interpreter::primitives`, outside the embedded file. -/
structure AccountInfo where
  balance : Nat
  nonce : Nat
  code_hash : Nat
  code : Option Nat
deriving Repr, DecidableEq

/-- Modelled from the spec: an empty account has zero balance, zero nonce
and no code (the empty-code sentinel hash). -/
def AccountInfo.is_empty (info : AccountInfo) : Bool :=
  info.balance == 0 && info.nonce == 0 && info.code_hash == KECCAK_EMPTY

/-- The `AccountInfo` of an account that exists but is empty. -/
def AccountInfo.empty : AccountInfo :=
  { balance := 0, nonce := 0, code_hash := KECCAK_EMPTY, code := none }

/-- Modelled from the spec: a per-slot execution-result storage value,
carrying the previous and the current value. -/
structure EvmStorageSlot where
  previous_or_original_value : Nat
  present_value : Nat
deriving Repr, DecidableEq

/-- Modelled from the spec: a slot is changed when its previous and current
values differ. -/
def EvmStorageSlot.is_changed (slot : EvmStorageSlot) : Bool :=
  slot.previous_or_original_value != slot.present_value

/-- A storage slot of a transition record: previous and new value.  Target of
the `slot.into()` conversion in the storage-delta extraction. -/
structure StorageSlot where
  previous_or_original_value : Nat
  present_value : Nat
deriving Repr, DecidableEq

/-- The `From<EvmStorageSlot>` conversion used by `.map(|(key, slot)| (key, slot.into()))`. -/
def EvmStorageSlot.intoSlot (slot : EvmStorageSlot) : StorageSlot :=
  { previous_or_original_value := slot.previous_or_original_value
    present_value := slot.present_value }

/-- Modelled from the spec: the raw execution-result account consumed by the
transition engine, carrying the touched/created/self-destructed flags, an
info snapshot and the per-slot storage delta. -/
structure Account where
  info : AccountInfo
  storage : List (Nat × EvmStorageSlot)
  touched : Bool
  selfdestructed : Bool
  created : Bool
deriving Repr, DecidableEq

/-- Modelled from the spec: the touched flag accessor. -/
def Account.is_touched (a : Account) : Bool := a.touched

/-- Modelled from the spec: the self-destructed flag accessor. -/
def Account.is_selfdestructed (a : Account) : Bool := a.selfdestructed

/-- Modelled from the spec: the created flag accessor. -/
def Account.is_created (a : Account) : Bool := a.created

/-- Modelled from the spec: the post-execution account is empty when its
info snapshot denotes an empty account. -/
def Account.is_empty (a : Account) : Bool := a.info.is_empty

/-- Modelled from the spec: the account-lifecycle status of a cache entry
(§3 of the spec lists this status set). -/
inductive AccountStatus where
  | LoadedNotExisting
  | Loaded
  | LoadedEmptyEip161
  | Changed
  | Created
  | Destroyed
deriving Repr, DecidableEq

/-- A materialized account: info plus merged storage (current value per slot). -/
structure PlainAccount where
  info : AccountInfo
  storage : List (Nat × Nat)
deriving Repr, DecidableEq

/-- Modelled from the spec: an Account Cache Entry — a lifecycle status plus
an optional materialized account. -/
structure CacheAccount where
  account : Option PlainAccount
  status : AccountStatus
deriving Repr, DecidableEq

/-- Modelled from the spec: a Transition Record — previous observable
status/info and new observable status/info plus the changed-slot delta. -/
structure TransitionAccount where
  info : Option AccountInfo
  status : AccountStatus
  previous_info : Option AccountInfo
  previous_status : AccountStatus
  storage : List (Nat × StorageSlot)
deriving Repr, DecidableEq

/-- Modelled from the spec: loader constructor for a known-to-not-exist entry. -/
def CacheAccount.new_loaded_not_existing : CacheAccount :=
  { account := none, status := .LoadedNotExisting }

/-- Modelled from the spec: loader constructor for a loaded, non-empty entry. -/
def CacheAccount.new_loaded (info : AccountInfo) (storage : List (Nat × Nat)) : CacheAccount :=
  { account := some { info := info, storage := storage }, status := .Loaded }

/-- Modelled from the spec: loader constructor for a loaded-but-empty entry
under EIP-161 semantics. -/
def CacheAccount.new_loaded_empty_eip161 (storage : List (Nat × Nat)) : CacheAccount :=
  { account := some { info := AccountInfo.empty, storage := storage }
    status := .LoadedEmptyEip161 }

/-- Modelled from the spec: the self-destruct lifecycle operation.  The entry
becomes destroyed (no materialized account); a record is emitted unless the
entry already denoted a non-existent or destroyed account (no observable net
effect). -/
def CacheAccount.selfdestruct (self : CacheAccount) :
    CacheAccount × Option TransitionAccount :=
  let next : CacheAccount := { account := none, status := .Destroyed }
  if self.status = .LoadedNotExisting ∨ self.status = .Destroyed then
    (next, none)
  else
    (next, some { info := none, status := .Destroyed
                  previous_info := self.account.map (·.info)
                  previous_status := self.status, storage := [] })

/-- Merge a changed-slot delta into a merged storage map, keeping only the
current value per slot. -/
def mergeStorage (base : List (Nat × Nat)) (delta : List (Nat × StorageSlot)) :
    List (Nat × Nat) :=
  delta.foldl (fun st p => insertAssoc st p.1 p.2.present_value) base

/-- Modelled from the spec: the newly-created lifecycle operation.  Creation
always yields an observable record, because the lifecycle status itself
changes. -/
def CacheAccount.newly_created (self : CacheAccount) (info : AccountInfo)
    (storage : List (Nat × StorageSlot)) : CacheAccount × TransitionAccount :=
  ({ account := some { info := info, storage := mergeStorage [] storage }
     status := .Created },
   { info := some info, status := .Created
     previous_info := self.account.map (·.info)
     previous_status := self.status, storage := storage })

/-- Modelled from the spec: the "touch as empty, clearing" lifecycle
operation (EIP-161).  The entry is cleared; nothing is emitted when the
entry is already in a state equivalent to non-existent / previously cleared
(idempotent re-touch must not re-emit). -/
def CacheAccount.touch_empty_eip161 (self : CacheAccount) :
    CacheAccount × Option TransitionAccount :=
  let next : CacheAccount := { account := none, status := .Destroyed }
  if self.status = .LoadedNotExisting ∨ self.status = .Destroyed then
    (next, none)
  else
    (next, some { info := none, status := .Destroyed
                  previous_info := self.account.map (·.info)
                  previous_status := self.status, storage := [] })

/-- Modelled from the spec: the "touch/create, pre-clearing" lifecycle
operation — persists the empty account (legacy behavior) and records the
touch. -/
def CacheAccount.touch_create_pre_eip161 (self : CacheAccount)
    (storage : List (Nat × StorageSlot)) : CacheAccount × Option TransitionAccount :=
  let prev : List (Nat × Nat) := (self.account.map (·.storage)).getD []
  (({ account := some { info := AccountInfo.empty, storage := mergeStorage prev storage }
      status := .Changed }),
   some { info := some AccountInfo.empty, status := .Changed
          previous_info := self.account.map (·.info)
          previous_status := self.status, storage := storage })

/-- Modelled from the spec: the generic change lifecycle operation — applies
the new info and merges the changed-slot delta; always yields a record. -/
def CacheAccount.change (self : CacheAccount) (info : AccountInfo)
    (storage : List (Nat × StorageSlot)) : CacheAccount × TransitionAccount :=
  let prev : List (Nat × Nat) := (self.account.map (·.storage)).getD []
  ({ account := some { info := info, storage := mergeStorage prev storage }
     status := .Changed },
   { info := some info, status := .Changed
     previous_info := self.account.map (·.info)
     previous_status := self.status, storage := storage })

/-- The cache state: the account cache, the contract code store and the
EIP-161 state-clear flag (`CacheState` in the source). -/
structure CacheState where
  accounts : List (Nat × CacheAccount)
  contracts : List (Nat × Nat)
  has_state_clear : Bool
deriving Repr, DecidableEq

/-- `CacheState::new`. -/
def CacheState.new (has_state_clear : Bool) : CacheState :=
  { accounts := [], contracts := [], has_state_clear := has_state_clear }

/-- `CacheState::set_state_clear_flag`. -/
def CacheState.set_state_clear_flag (self : CacheState) (has_state_clear : Bool) :
    CacheState :=
  { self with has_state_clear := has_state_clear }

/-- `CacheState::insert_not_existing`: insert a not-existing account entry. -/
def CacheState.insert_not_existing (self : CacheState) (address : Nat) : CacheState :=
  { self with
    accounts := insertAssoc self.accounts address CacheAccount.new_loaded_not_existing }

/-- `CacheState::insert_account`: insert a Loaded (or LoadedEmptyEip161 if
the info is empty) account entry. -/
def CacheState.insert_account (self : CacheState) (address : Nat)
    (info : AccountInfo) : CacheState :=
  let account :=
    if !info.is_empty then CacheAccount.new_loaded info []
    else CacheAccount.new_loaded_empty_eip161 []
  { self with accounts := insertAssoc self.accounts address account }

/-- `CacheState::insert_account_with_storage`: as `insert_account`, with an
initial storage snapshot. -/
def CacheState.insert_account_with_storage (self : CacheState) (address : Nat)
    (info : AccountInfo) (storage : List (Nat × Nat)) : CacheState :=
  let account :=
    if !info.is_empty then CacheAccount.new_loaded info storage
    else CacheAccount.new_loaded_empty_eip161 storage
  { self with accounts := insertAssoc self.accounts address account }

/-- The changed-storage delta extraction of `apply_account_state`: retain
only slots whose changed flag is set, converting each to a transition slot. -/
def changedStorage (storage : List (Nat × EvmStorageSlot)) : List (Nat × StorageSlot) :=
  (storage.filter (fun p => p.2.is_changed)).map (fun p => (p.1, p.2.intoSlot))

/-- `CacheState::apply_account_state`: apply one execution-result account to
the cached entry, returning the optional transition record.  The outer
`Option` models a Rust panic (`none` = fatal fault): the `expect` on a
missing cache entry and the `unwrap` of absent bytecode in the created
branch. -/
def CacheState.apply_account_state (self : CacheState) (address : Nat)
    (account : Account) : Option (CacheState × Option TransitionAccount) :=
  -- not touched account are never changed.
  if !account.is_touched then
    some (self, none)
  else
    match lookupAssoc self.accounts address with
    | none => none
    | some this_account =>
      -- selfdestruct takes precedence over the created/empty branches.
      if account.is_selfdestructed then
        some ({ self with
                accounts := insertAssoc self.accounts address this_account.selfdestruct.1 },
              this_account.selfdestruct.2)
      else if account.is_created then
        -- contracts.entry(code_hash).or_insert_with(|| info.code.clone().unwrap())
        match lookupAssoc self.contracts account.info.code_hash with
        | some _ =>
          some ({ self with
                  accounts := insertAssoc self.accounts address
                    (this_account.newly_created account.info
                      (changedStorage account.storage)).1 },
                some (this_account.newly_created account.info
                  (changedStorage account.storage)).2)
        | none =>
          match account.info.code with
          | none => none
          | some code =>
            some ({ self with
                    accounts := insertAssoc self.accounts address
                      (this_account.newly_created account.info
                        (changedStorage account.storage)).1
                    contracts := insertAssoc self.contracts account.info.code_hash code },
                  some (this_account.newly_created account.info
                    (changedStorage account.storage)).2)
      else if account.is_empty then
        if self.has_state_clear then
          some ({ self with
                  accounts := insertAssoc self.accounts address
                    this_account.touch_empty_eip161.1 },
                this_account.touch_empty_eip161.2)
        else
          some ({ self with
                  accounts := insertAssoc self.accounts address
                    (this_account.touch_create_pre_eip161 (changedStorage account.storage)).1 },
                (this_account.touch_create_pre_eip161 (changedStorage account.storage)).2)
      else
        some ({ self with
                accounts := insertAssoc self.accounts address
                  (this_account.change account.info (changedStorage account.storage)).1 },
              some (this_account.change account.info (changedStorage account.storage)).2)

/-- `CacheState::apply_evm_state`: fold `apply_account_state` over the batch
in iteration order, collecting the emitted records; the outer `Option`
propagates a fatal fault of any per-account application. -/
def CacheState.apply_evm_state (self : CacheState)
    (evm_state : List (Nat × Account)) :
    Option (CacheState × List (Nat × TransitionAccount)) :=
  match evm_state with
  | [] => some (self, [])
  | (address, account) :: rest =>
    match self.apply_account_state address account with
    | none => none
    | some (next, tr) =>
      match next.apply_evm_state rest with
      | none => none
      | some (final, transitions) =>
        some (final,
          (match tr with | some t => [(address, t)] | none => []) ++ transitions)

/-- `SuffixHasher::write`: copy the last 8 bytes of the key into the 8-byte
state buffer; `none` models the fatal indexing / length-mismatch fault of
`copy_from_slice(&bytes[bytes.len() - 8..])` when the key is shorter than
8 bytes. -/
def SuffixHasher.write (bytes : List Nat) : Option (List Nat) :=
  let s := bytes.drop (bytes.length - 8)
  if s.length = 8 then some s else none

/-- `SuffixHasher::finish` composed with `u64::from_be_bytes`: interpret the
8-byte state buffer as a big-endian 64-bit integer. -/
def SuffixHasher.finish (state : List Nat) : Nat :=
  state.foldl (fun acc b => acc * 256 + b) 0

/-- One `write` followed by `finish`: the hash of a byte key. -/
def suffixHash (bytes : List Nat) : Option Nat :=
  (SuffixHasher.write bytes).map SuffixHasher.finish

/-! ### Basic association-list lemmas -/

theorem lookupAssoc_insertAssoc_of_ne {α : Type} (l : List (Nat × α)) (k x : Nat)
    (v : α) (hne : x ≠ k) :
    lookupAssoc (insertAssoc l k v) x = lookupAssoc l x := by
  induction l with
  | nil => simp [insertAssoc, lookupAssoc, Ne.symm hne]
  | cons hd tl ih =>
    obtain ⟨k', v'⟩ := hd
    by_cases hk : k' = k
    · subst hk
      simp [insertAssoc, lookupAssoc, Ne.symm hne]
    · simp [insertAssoc, lookupAssoc, hk, ih]

theorem lookupAssoc_insertAssoc_self {α : Type} (l : List (Nat × α)) (k : Nat)
    (v : α) :
    lookupAssoc (insertAssoc l k v) k = some v := by
  induction l with
  | nil => simp [insertAssoc, lookupAssoc]
  | cons hd tl ih =>
    obtain ⟨k', v'⟩ := hd
    by_cases hk : k' = k
    · subst hk
      simp [insertAssoc, lookupAssoc]
    · simp [insertAssoc, lookupAssoc, hk, ih]

theorem ne_of_lookup_some_none {α : Type} {l : List (Nat × α)} {b x : Nat} {v : α}
    (hb : lookupAssoc l b = some v) (hx : lookupAssoc l x = none) : x ≠ b := by
  intro h
  subst h
  rw [hx] at hb
  exact Option.noConfusion hb

/-- A successful per-account application never adds a key to the account
cache: an address absent before stays absent after. -/
theorem apply_account_state_lookup_none {s s' : CacheState} {b x : Nat}
    {acc : Account} {r : Option TransitionAccount}
    (h : s.apply_account_state b acc = some (s', r))
    (hx : lookupAssoc s.accounts x = none) :
    lookupAssoc s'.accounts x = none := by
  unfold CacheState.apply_account_state at h
  split at h
  · rw [Option.some.injEq, Prod.mk.injEq] at h
    obtain ⟨h1, h2⟩ := h
    subst h1
    exact hx
  · cases hl : lookupAssoc s.accounts b with
    | none =>
      simp only [hl] at h
      exact Option.noConfusion h
    | some entry =>
      simp only [hl] at h
      have hxb : x ≠ b := ne_of_lookup_some_none hl hx
      have key : ∀ e : CacheAccount,
          lookupAssoc (insertAssoc s.accounts b e) x = none := fun e => by
        rw [lookupAssoc_insertAssoc_of_ne _ _ _ _ hxb]; exact hx
      split at h
      · rw [Option.some.injEq, Prod.mk.injEq] at h
        obtain ⟨h1, h2⟩ := h
        subst h1
        exact key _
      · split at h
        · split at h
          · rw [Option.some.injEq, Prod.mk.injEq] at h
            obtain ⟨h1, h2⟩ := h
            subst h1
            exact key _
          · split at h
            · exact Option.noConfusion h
            · rw [Option.some.injEq, Prod.mk.injEq] at h
              obtain ⟨h1, h2⟩ := h
              subst h1
              exact key _
        · split at h
          · split at h
            · rw [Option.some.injEq, Prod.mk.injEq] at h
              obtain ⟨h1, h2⟩ := h
              subst h1
              exact key _
            · rw [Option.some.injEq, Prod.mk.injEq] at h
              obtain ⟨h1, h2⟩ := h
              subst h1
              exact key _
          · rw [Option.some.injEq, Prod.mk.injEq] at h
            obtain ⟨h1, h2⟩ := h
            subst h1
            exact key _

/-- One-step form of the missing-entry fault: a touched account whose
address has no cache entry makes `apply_account_state` fail fatally. -/
theorem apply_account_state_missing (s : CacheState) (address : Nat)
    (account : Account)
    (ht : account.is_touched = true)
    (hl : lookupAssoc s.accounts address = none) :
    s.apply_account_state address account = none := by
  unfold CacheState.apply_account_state
  simp [ht, hl]

/-- Batch form of the missing-entry fault: if the batch contains a touched
account whose address is absent from the cache, the whole batch application
fails fatally. -/
theorem apply_evm_state_missing_aux (address : Nat) (account : Account)
    (ht : account.is_touched = true) :
    ∀ (batch : List (Nat × Account)) (s : CacheState),
      lookupAssoc s.accounts address = none → (address, account) ∈ batch →
      s.apply_evm_state batch = none := by
  intro batch
  induction batch with
  | nil =>
    intro s _ hmem
    simp at hmem
  | cons hd tl ih =>
    intro s hnone hmem
    obtain ⟨b, acc⟩ := hd
    rcases List.mem_cons.mp hmem with heq | hmem'
    · cases heq
      simp [CacheState.apply_evm_state,
        apply_account_state_missing s address account ht hnone]
    · cases hsa : s.apply_account_state b acc with
      | none => simp [CacheState.apply_evm_state, hsa]
      | some p =>
        obtain ⟨next, tr⟩ := p
        have hnone' := apply_account_state_lookup_none hsa hnone
        simp [CacheState.apply_evm_state, hsa, ih next hnone' hmem']

/-- C1: for every execution-result account whose `is_touched` flag is
false, `apply_account_state` returns no transition record and leaves the
whole cache state (accounts map, contracts map, state-clear flag)
unchanged, without any fatal fault — even when the address has no cache
entry. -/
theorem touch_filter_skips (s : CacheState) (address : Nat) (account : Account)
    (h : account.is_touched = false) :
    s.apply_account_state address account = some (s, none) := by
  unfold CacheState.apply_account_state
  simp [h]

/-- Untouched execution-result account carrying provocative flags
(self-destructed and created both set). -/
def acctC1 : Account :=
  { info := AccountInfo.empty, storage := [], touched := false
    selfdestructed := true, created := true }

theorem touch_filter_skips_witness :
    acctC1.is_touched = false ∧
    (CacheState.new true).apply_account_state 9 acctC1 =
      some (CacheState.new true, none) :=
  ⟨rfl, touch_filter_skips (CacheState.new true) 9 acctC1 rfl⟩

/-- C2: for every touched execution-result account with
`is_selfdestructed = true`, `apply_account_state` returns exactly the
optional record produced by the entry's selfdestruct operation and writes
back the selfdestructed entry, no matter the created/empty flags; the
contract store and the state-clear flag are untouched. -/
theorem selfdestruct_precedence (s : CacheState) (address : Nat)
    (account : Account) (entry : CacheAccount)
    (ht : account.is_touched = true)
    (hsd : account.is_selfdestructed = true)
    (hl : lookupAssoc s.accounts address = some entry) :
    s.apply_account_state address account =
      some (CacheState.mk (insertAssoc s.accounts address entry.selfdestruct.1)
              s.contracts s.has_state_clear,
            entry.selfdestruct.2) := by
  unfold CacheState.apply_account_state
  simp [ht, hsd, hl]

/-- A non-empty account info used to build loaded sample entries. -/
def infoC2 : AccountInfo :=
  { balance := 10, nonce := 1, code_hash := KECCAK_EMPTY, code := none }

/-- A touched, self-destructed execution result that is also marked created
and empty, exercising the precedence claim. -/
def acctC2 : Account :=
  { info := AccountInfo.empty, storage := [], touched := true
    selfdestructed := true, created := true }

/-- A cache with address 7 loaded as a plain non-empty account. -/
def sC2 : CacheState := (CacheState.new true).insert_account 7 infoC2

/-- The entry stored at address 7 in `sC2`. -/
def entryC2 : CacheAccount := CacheAccount.new_loaded infoC2 []

theorem selfdestruct_precedence_witness :
    acctC2.is_touched = true ∧ acctC2.is_selfdestructed = true ∧
    lookupAssoc sC2.accounts 7 = some entryC2 ∧
    sC2.apply_account_state 7 acctC2 =
      some (CacheState.mk (insertAssoc sC2.accounts 7 entryC2.selfdestruct.1)
              sC2.contracts sC2.has_state_clear,
            entryC2.selfdestruct.2) :=
  ⟨rfl, rfl, by decide, selfdestruct_precedence sC2 7 acctC2 entryC2 rfl rfl (by decide)⟩

/-- C3: a touched execution-result account whose address has no entry in
the account cache makes `apply_account_state` — and hence any
`apply_evm_state` batch containing it — fail fatally rather than creating a
default entry or returning a recoverable result. -/
theorem missing_entry_fatal (s : CacheState) (address : Nat) (account : Account)
    (ht : account.is_touched = true)
    (hl : lookupAssoc s.accounts address = none) :
    s.apply_account_state address account = none ∧
    ∀ batch : List (Nat × Account), (address, account) ∈ batch →
      s.apply_evm_state batch = none :=
  ⟨apply_account_state_missing s address account ht hl,
   fun batch hmem => apply_evm_state_missing_aux address account ht batch s hl hmem⟩

/-- A touched, otherwise plain execution result for the missing-entry fault. -/
def acctC3 : Account :=
  { info := AccountInfo.empty, storage := [], touched := true
    selfdestructed := false, created := false }

theorem missing_entry_fatal_witness :
    acctC3.is_touched = true ∧
    lookupAssoc (CacheState.new true).accounts 3 = none ∧
    (CacheState.new true).apply_account_state 3 acctC3 = none ∧
    (CacheState.new true).apply_evm_state [(3, acctC3)] = none :=
  ⟨rfl, rfl,
   (missing_entry_fatal (CacheState.new true) 3 acctC3 rfl rfl).1,
   (missing_entry_fatal (CacheState.new true) 3 acctC3 rfl rfl).2
     [(3, acctC3)] (by simp)⟩

/-! ### Contract-store lemmas (C4) -/

/-- Number of bindings an association list holds for a key. -/
def countKey {α : Type} (l : List (Nat × α)) (k : Nat) : Nat :=
  (l.filter (fun p => p.1 == k)).length

theorem countKey_append {α : Type} (l₁ l₂ : List (Nat × α)) (k : Nat) :
    countKey (l₁ ++ l₂) k = countKey l₁ k + countKey l₂ k := by
  simp [countKey, List.filter_append]

theorem countKey_of_lookup_none {α : Type} {l : List (Nat × α)} {k : Nat}
    (h : lookupAssoc l k = none) : countKey l k = 0 := by
  induction l with
  | nil => simp [countKey]
  | cons hd tl ih =>
    obtain ⟨k', v'⟩ := hd
    by_cases hk : k' = k
    · subst hk
      simp [lookupAssoc] at h
    · simp only [lookupAssoc, if_neg hk] at h
      simpa [countKey, hk] using ih h

theorem insertAssoc_of_lookup_none {α : Type} {l : List (Nat × α)} {k : Nat}
    (v : α) (h : lookupAssoc l k = none) :
    insertAssoc l k v = l ++ [(k, v)] := by
  induction l with
  | nil => simp [insertAssoc]
  | cons hd tl ih =>
    obtain ⟨k', v'⟩ := hd
    by_cases hk : k' = k
    · subst hk
      simp [lookupAssoc] at h
    · simp only [lookupAssoc, if_neg hk] at h
      simp [insertAssoc, hk, ih h]

/-- The contract store after one successful per-account application: either
untouched, or extended with one binding for a previously absent code hash. -/
theorem apply_account_state_contracts_shape {s s' : CacheState} {b : Nat}
    {acc : Account} {r : Option TransitionAccount}
    (h : s.apply_account_state b acc = some (s', r)) :
    s'.contracts = s.contracts ∨
    ∃ hsh c, lookupAssoc s.contracts hsh = none ∧
      s'.contracts = insertAssoc s.contracts hsh c := by
  unfold CacheState.apply_account_state at h
  split at h
  · rw [Option.some.injEq, Prod.mk.injEq] at h
    obtain ⟨h1, h2⟩ := h
    subst h1
    exact Or.inl rfl
  · cases hl : lookupAssoc s.accounts b with
    | none =>
      simp only [hl] at h
      exact Option.noConfusion h
    | some entry =>
      simp only [hl] at h
      split at h
      · rw [Option.some.injEq, Prod.mk.injEq] at h
        obtain ⟨h1, h2⟩ := h
        subst h1
        exact Or.inl rfl
      · split at h
        · split at h
          · rw [Option.some.injEq, Prod.mk.injEq] at h
            obtain ⟨h1, h2⟩ := h
            subst h1
            exact Or.inl rfl
          · rename_i hnone
            split at h
            · exact Option.noConfusion h
            · rename_i code hcode
              rw [Option.some.injEq, Prod.mk.injEq] at h
              obtain ⟨h1, h2⟩ := h
              subst h1
              exact Or.inr ⟨acc.info.code_hash, code, hnone, rfl⟩
        · split at h
          · split at h
            · rw [Option.some.injEq, Prod.mk.injEq] at h
              obtain ⟨h1, h2⟩ := h
              subst h1
              exact Or.inl rfl
            · rw [Option.some.injEq, Prod.mk.injEq] at h
              obtain ⟨h1, h2⟩ := h
              subst h1
              exact Or.inl rfl
          · rw [Option.some.injEq, Prod.mk.injEq] at h
            obtain ⟨h1, h2⟩ := h
            subst h1
            exact Or.inl rfl

/-- One successful per-account application leaves every already-registered
code hash bound to its original bytecode, with its binding count intact. -/
theorem apply_account_state_contracts_preserved {s s' : CacheState} {b k c : Nat}
    {acc : Account} {r : Option TransitionAccount}
    (h : s.apply_account_state b acc = some (s', r))
    (hk : lookupAssoc s.contracts k = some c) :
    lookupAssoc s'.contracts k = some c ∧
    countKey s'.contracts k = countKey s.contracts k := by
  rcases apply_account_state_contracts_shape h with heq | ⟨hsh, c', hnone, heq⟩
  · rw [heq]
    exact ⟨hk, rfl⟩
  · have hkne : k ≠ hsh := Ne.symm (ne_of_lookup_some_none hk hnone)
    rw [heq, insertAssoc_of_lookup_none _ hnone]
    constructor
    · rw [← insertAssoc_of_lookup_none _ hnone,
        lookupAssoc_insertAssoc_of_ne _ _ _ _ hkne]
      exact hk
    · rw [countKey_append]
      simp [countKey, Ne.symm hkne]

/-- Batch version: a registered code hash keeps its bytecode and its single
binding across a whole batch application. -/
theorem apply_evm_state_contracts_preserved :
    ∀ (batch : List (Nat × Account)) (s s' : CacheState)
      (ts : List (Nat × TransitionAccount)) (k c : Nat),
      s.apply_evm_state batch = some (s', ts) →
      lookupAssoc s.contracts k = some c →
      lookupAssoc s'.contracts k = some c ∧
      countKey s'.contracts k = countKey s.contracts k := by
  intro batch
  induction batch with
  | nil =>
    intro s s' ts k c h hk
    unfold CacheState.apply_evm_state at h
    rw [Option.some.injEq, Prod.mk.injEq] at h
    obtain ⟨h1, h2⟩ := h
    subst h1
    exact ⟨hk, rfl⟩
  | cons hd tl ih =>
    intro s s' ts k c h hk
    obtain ⟨b, acc⟩ := hd
    unfold CacheState.apply_evm_state at h
    cases hsa : s.apply_account_state b acc with
    | none =>
      rw [hsa] at h
      exact Option.noConfusion h
    | some p =>
      obtain ⟨next, tr⟩ := p
      simp only [hsa] at h
      have step := apply_account_state_contracts_preserved hsa hk
      cases hrest : next.apply_evm_state tl with
      | none =>
        simp only [hrest] at h
        exact Option.noConfusion h
      | some q =>
        obtain ⟨final, transitions⟩ := q
        simp only [hrest] at h
        rw [Option.some.injEq, Prod.mk.injEq] at h
        obtain ⟨h1, h2⟩ := h
        subst h1
        have := ih next final transitions k c hrest step.1
        exact ⟨this.1, this.2.trans step.2⟩

/-- First registration of a code hash: applying a touched, created,
not-selfdestructed account whose code hash is absent from the store inserts
its inlined bytecode, yielding exactly one binding for that hash. -/
theorem apply_account_state_first_insert {s s' : CacheState} {a c : Nat}
    {acct : Account} {r : Option TransitionAccount}
    (ht : acct.is_touched = true) (hsd : acct.is_selfdestructed = false)
    (hcr : acct.is_created = true)
    (hnone : lookupAssoc s.contracts acct.info.code_hash = none)
    (hcode : acct.info.code = some c)
    (h : s.apply_account_state a acct = some (s', r)) :
    lookupAssoc s'.contracts acct.info.code_hash = some c ∧
    countKey s'.contracts acct.info.code_hash = 1 := by
  unfold CacheState.apply_account_state at h
  cases hl : lookupAssoc s.accounts a with
  | none => simp [ht, hl] at h
  | some entry =>
    simp only [ht, hsd, hcr, hl, hnone, hcode, Bool.not_true, Bool.false_eq_true,
      if_false, if_true, Option.some.injEq, Prod.mk.injEq] at h
    obtain ⟨h1, h2⟩ := h
    subst h1
    refine ⟨lookupAssoc_insertAssoc_self s.contracts acct.info.code_hash c, ?_⟩
    show countKey (insertAssoc s.contracts acct.info.code_hash c)
      acct.info.code_hash = 1
    rw [insertAssoc_of_lookup_none _ hnone, countKey_append,
      countKey_of_lookup_none hnone]
    simp [countKey]

/-- C4: contract-store registration is insert-if-absent.  First part: an
already-registered code hash keeps the bytecode of its first insertion —
with exactly the same single binding — across any further batch of
applications, even when later created accounts carry the same hash with
different bytecode.  Second part: the first insertion of an absent hash
leaves exactly one binding, holding the supplied bytecode. -/
theorem contract_store_insert_if_absent :
    (∀ (batch : List (Nat × Account)) (s s' : CacheState)
       (ts : List (Nat × TransitionAccount)) (k c : Nat),
       s.apply_evm_state batch = some (s', ts) →
       lookupAssoc s.contracts k = some c →
       lookupAssoc s'.contracts k = some c ∧
       countKey s'.contracts k = countKey s.contracts k) ∧
    (∀ (s s' : CacheState) (a c : Nat) (acct : Account)
       (r : Option TransitionAccount),
       acct.is_touched = true → acct.is_selfdestructed = false →
       acct.is_created = true →
       lookupAssoc s.contracts acct.info.code_hash = none →
       acct.info.code = some c →
       s.apply_account_state a acct = some (s', r) →
       lookupAssoc s'.contracts acct.info.code_hash = some c ∧
       countKey s'.contracts acct.info.code_hash = 1) :=
  ⟨fun batch s s' ts k c h hk =>
      apply_evm_state_contracts_preserved batch s s' ts k c h hk,
   fun _ _ _ _ _ _ ht hsd hcr hnone hcode h =>
      apply_account_state_first_insert ht hsd hcr hnone hcode h⟩

/-- A created account whose code hash 5 is already registered, carrying
different bytecode (200) than the registered one (100). -/
def acctC4a : Account :=
  { info := { balance := 1, nonce := 0, code_hash := 5, code := some 200 }
    storage := [], touched := true, selfdestructed := false, created := true }

/-- A created account with the yet-unregistered code hash 6 and inlined
bytecode 300. -/
def acctC4b : Account :=
  { info := { balance := 1, nonce := 0, code_hash := 6, code := some 300 }
    storage := [], touched := true, selfdestructed := false, created := true }

/-- Cache with two not-existing entries and hash 5 already bound to 100. -/
def sC4 : CacheState :=
  { accounts := [(1, CacheAccount.new_loaded_not_existing),
                 (2, CacheAccount.new_loaded_not_existing)]
    contracts := [(5, 100)], has_state_clear := true }

/-- The state and transitions after applying `acctC4a` as a batch. -/
def r4a : CacheState × List (Nat × TransitionAccount) :=
  (sC4.apply_evm_state [(1, acctC4a)]).getD (sC4, [])

/-- The state and record after applying `acctC4b` to address 2. -/
def r4b : CacheState × Option TransitionAccount :=
  (sC4.apply_account_state 2 acctC4b).getD (sC4, none)

theorem contract_store_insert_if_absent_witness :
    (sC4.apply_evm_state [(1, acctC4a)] = some (r4a.1, r4a.2) ∧
     lookupAssoc sC4.contracts 5 = some 100 ∧
     lookupAssoc r4a.1.contracts 5 = some 100 ∧
     countKey r4a.1.contracts 5 = countKey sC4.contracts 5) ∧
    (sC4.apply_account_state 2 acctC4b = some (r4b.1, r4b.2) ∧
     lookupAssoc sC4.contracts acctC4b.info.code_hash = none ∧
     lookupAssoc r4b.1.contracts acctC4b.info.code_hash = some 300 ∧
     countKey r4b.1.contracts acctC4b.info.code_hash = 1) :=
  ⟨⟨by decide, by decide,
    (contract_store_insert_if_absent.1 [(1, acctC4a)] sC4 r4a.1 r4a.2 5 100
      (by decide) (by decide)).1,
    (contract_store_insert_if_absent.1 [(1, acctC4a)] sC4 r4a.1 r4a.2 5 100
      (by decide) (by decide)).2⟩,
   ⟨by decide, by decide,
    (contract_store_insert_if_absent.2 sC4 r4b.1 2 300 acctC4b r4b.2
      rfl rfl rfl (by decide) rfl (by decide)).1,
    (contract_store_insert_if_absent.2 sC4 r4b.1 2 300 acctC4b r4b.2
      rfl rfl rfl (by decide) rfl (by decide)).2⟩⟩

/-- C5: for a touched, not-selfdestructed, not-created execution-result
account whose post-state is empty, `apply_account_state` delegates to the
entry's "touch empty, clearing" operation when the state-clear flag is set
— whose record is `none` on a re-touch of an already cleared/non-existent
entry — and to the "touch/create, pre-clearing" operation applied to the
changed-storage delta otherwise, which keeps an empty materialized
account. -/
theorem empty_touch_dispatch (s : CacheState) (address : Nat) (acct : Account)
    (entry : CacheAccount)
    (ht : acct.is_touched = true)
    (hsd : acct.is_selfdestructed = false)
    (hcr : acct.is_created = false)
    (hemp : acct.is_empty = true)
    (hl : lookupAssoc s.accounts address = some entry) :
    (s.has_state_clear = true →
      s.apply_account_state address acct =
        some (CacheState.mk
                (insertAssoc s.accounts address entry.touch_empty_eip161.1)
                s.contracts s.has_state_clear,
              entry.touch_empty_eip161.2) ∧
      ((entry.status = .LoadedNotExisting ∨ entry.status = .Destroyed) →
        entry.touch_empty_eip161.2 = none)) ∧
    (s.has_state_clear = false →
      s.apply_account_state address acct =
        some (CacheState.mk
                (insertAssoc s.accounts address
                  (entry.touch_create_pre_eip161 (changedStorage acct.storage)).1)
                s.contracts s.has_state_clear,
              (entry.touch_create_pre_eip161 (changedStorage acct.storage)).2) ∧
      (entry.touch_create_pre_eip161 (changedStorage acct.storage)).1.account.map
          (·.info) = some AccountInfo.empty) := by
  constructor
  · intro hclear
    refine ⟨?_, ?_⟩
    · unfold CacheState.apply_account_state
      simp [ht, hsd, hcr, hemp, hl, hclear]
    · intro hst
      rcases hst with h1 | h1 <;>
        simp [CacheAccount.touch_empty_eip161, h1]
  · intro hclear
    refine ⟨?_, ?_⟩
    · unfold CacheState.apply_account_state
      simp [ht, hsd, hcr, hemp, hl, hclear]
    · simp [CacheAccount.touch_create_pre_eip161]

/-- A touched execution result that ends the batch empty, with one changed
and one unchanged storage slot. -/
def acctC5 : Account :=
  { info := AccountInfo.empty
    storage := [(1, { previous_or_original_value := 0, present_value := 2 }),
                (3, { previous_or_original_value := 5, present_value := 5 })]
    touched := true, selfdestructed := false, created := false }

/-- Clearing-policy cache whose address 4 was recorded as not existing
(idempotent re-touch case). -/
def sC5a : CacheState :=
  { accounts := [(4, CacheAccount.new_loaded_not_existing)]
    contracts := [], has_state_clear := true }

/-- Legacy-policy cache whose address 4 is a loaded non-empty account. -/
def sC5b : CacheState :=
  { accounts := [(4, CacheAccount.new_loaded
      { balance := 10, nonce := 1, code_hash := KECCAK_EMPTY, code := none } [])]
    contracts := [], has_state_clear := false }

theorem empty_touch_dispatch_witness :
    (acctC5.is_touched = true ∧ acctC5.is_empty = true ∧
     sC5a.apply_account_state 4 acctC5 =
       some (CacheState.mk
               (insertAssoc sC5a.accounts 4
                 CacheAccount.new_loaded_not_existing.touch_empty_eip161.1)
               sC5a.contracts sC5a.has_state_clear,
             CacheAccount.new_loaded_not_existing.touch_empty_eip161.2) ∧
     CacheAccount.new_loaded_not_existing.touch_empty_eip161.2 = none) ∧
    (sC5b.apply_account_state 4 acctC5 =
       some (CacheState.mk
               (insertAssoc sC5b.accounts 4
                 ((CacheAccount.new_loaded
                     { balance := 10, nonce := 1, code_hash := KECCAK_EMPTY,
                       code := none } []).touch_create_pre_eip161
                   (changedStorage acctC5.storage)).1)
               sC5b.contracts sC5b.has_state_clear,
             ((CacheAccount.new_loaded
                 { balance := 10, nonce := 1, code_hash := KECCAK_EMPTY,
                   code := none } []).touch_create_pre_eip161
               (changedStorage acctC5.storage)).2) ∧
     ((CacheAccount.new_loaded
         { balance := 10, nonce := 1, code_hash := KECCAK_EMPTY,
           code := none } []).touch_create_pre_eip161
       (changedStorage acctC5.storage)).1.account.map (·.info) =
       some AccountInfo.empty) :=
  ⟨⟨rfl, by decide,
    ((empty_touch_dispatch sC5a 4 acctC5 CacheAccount.new_loaded_not_existing
        rfl rfl rfl (by decide) (by decide)).1 rfl).1,
    ((empty_touch_dispatch sC5a 4 acctC5 CacheAccount.new_loaded_not_existing
        rfl rfl rfl (by decide) (by decide)).1 rfl).2 (Or.inl rfl)⟩,
   ⟨((empty_touch_dispatch sC5b 4 acctC5
        (CacheAccount.new_loaded
          { balance := 10, nonce := 1, code_hash := KECCAK_EMPTY, code := none } [])
        rfl rfl rfl (by decide) (by decide)).2 rfl).1,
    ((empty_touch_dispatch sC5b 4 acctC5
        (CacheAccount.new_loaded
          { balance := 10, nonce := 1, code_hash := KECCAK_EMPTY, code := none } [])
        rfl rfl rfl (by decide) (by decide)).2 rfl).2⟩⟩

/-- C9: the created branch silently requires inlined bytecode — a touched,
not-selfdestructed, created account whose code hash is absent from the
contract store and whose `info.code` is `None` makes `apply_account_state`
fail fatally (the unwrap of `None`). -/
theorem created_missing_code_fatal (s : CacheState) (address : Nat)
    (acct : Account) (entry : CacheAccount)
    (ht : acct.is_touched = true)
    (hsd : acct.is_selfdestructed = false)
    (hcr : acct.is_created = true)
    (hl : lookupAssoc s.accounts address = some entry)
    (hnone : lookupAssoc s.contracts acct.info.code_hash = none)
    (hcode : acct.info.code = none) :
    s.apply_account_state address acct = none := by
  unfold CacheState.apply_account_state
  simp [ht, hsd, hcr, hl, hnone, hcode]

/-- A created account without inlined bytecode whose hash is unregistered. -/
def acctC9 : Account :=
  { info := { balance := 0, nonce := 1, code_hash := 42, code := none }
    storage := [], touched := true, selfdestructed := false, created := true }

/-- Cache with address 8 recorded as not existing and no contracts. -/
def sC9 : CacheState :=
  { accounts := [(8, CacheAccount.new_loaded_not_existing)]
    contracts := [], has_state_clear := true }

theorem created_missing_code_fatal_witness :
    acctC9.is_touched = true ∧ acctC9.is_created = true ∧
    acctC9.info.code = none ∧
    lookupAssoc sC9.contracts acctC9.info.code_hash = none ∧
    sC9.apply_account_state 8 acctC9 = none :=
  ⟨rfl, rfl, rfl, rfl,
   created_missing_code_fatal sC9 8 acctC9 CacheAccount.new_loaded_not_existing
     rfl rfl rfl (by decide) rfl rfl⟩

/-- C10: the loader operations unconditionally overwrite any existing
binding for the address — after any of the three insertions the cache entry
is exactly the newly computed one, whatever was there before; none of them
can fail or reject a repeated loader call. -/
theorem loader_insert_overwrites (s : CacheState) (address : Nat)
    (info : AccountInfo) (storage : List (Nat × Nat)) :
    lookupAssoc (s.insert_not_existing address).accounts address =
      some CacheAccount.new_loaded_not_existing ∧
    lookupAssoc (s.insert_account address info).accounts address =
      some (if !info.is_empty then CacheAccount.new_loaded info []
            else CacheAccount.new_loaded_empty_eip161 []) ∧
    lookupAssoc (s.insert_account_with_storage address info storage).accounts
        address =
      some (if !info.is_empty then CacheAccount.new_loaded info storage
            else CacheAccount.new_loaded_empty_eip161 storage) := by
  refine ⟨?_, ?_, ?_⟩
  · exact lookupAssoc_insertAssoc_self ..
  · unfold CacheState.insert_account
    split <;> exact lookupAssoc_insertAssoc_self ..
  · unfold CacheState.insert_account_with_storage
    split <;> exact lookupAssoc_insertAssoc_self ..

/-- The big-endian integer formed from the last 8 bytes of the key, written
from the spec's words (take the last eight, fold big-endian), independently
of the hasher's buffer copy. -/
def lastEightBE (bytes : List Nat) : Nat :=
  ((bytes.reverse.take 8).reverse).foldl (fun acc b => acc * 256 + b) 0

/-- The big-endian fold of a byte list is bounded by `256 ^ length`,
relative to its accumulator. -/
theorem foldl_be_lt :
    ∀ (xs : List Nat) (a : Nat), (∀ b ∈ xs, b < 256) →
      xs.foldl (fun acc b => acc * 256 + b) a < (a + 1) * 256 ^ xs.length := by
  intro xs
  induction xs with
  | nil =>
    intro a _
    simp
  | cons b xs ih =>
    intro a hb
    have hb' : b < 256 := hb b (List.mem_cons_self ..)
    have hstep : a * 256 + b + 1 ≤ (a + 1) * 256 := by nlinarith
    calc (b :: xs).foldl (fun acc c => acc * 256 + c) a
        = xs.foldl (fun acc c => acc * 256 + c) (a * 256 + b) := by simp
      _ < (a * 256 + b + 1) * 256 ^ xs.length :=
          ih (a * 256 + b) (fun c hc => hb c (List.mem_cons_of_mem _ hc))
      _ ≤ ((a + 1) * 256) * 256 ^ xs.length :=
          Nat.mul_le_mul_right _ hstep
      _ = (a + 1) * 256 ^ (b :: xs).length := by
          rw [List.length_cons, pow_succ]
          ring

/-- C7: hashing a byte key of length at least 8 with the suffix hasher (one
write followed by finish) yields the big-endian integer formed from the
key's last 8 bytes, a 64-bit value. -/
theorem suffix_hash_last8 (bytes : List Nat) (h8 : 8 ≤ bytes.length)
    (hb : ∀ b ∈ bytes, b < 256) :
    suffixHash bytes = some (lastEightBE bytes) ∧ lastEightBE bytes < 2 ^ 64 := by
  have hlast : (bytes.reverse.take 8).reverse = bytes.drop (bytes.length - 8) := by
    rw [List.take_reverse, List.reverse_reverse]
  have hlen : (bytes.drop (bytes.length - 8)).length = 8 := by
    rw [List.length_drop]
    omega
  constructor
  · unfold suffixHash SuffixHasher.write SuffixHasher.finish lastEightBE
    rw [hlast]
    simp [hlen]
  · unfold lastEightBE
    rw [hlast]
    have hmem : ∀ b ∈ bytes.drop (bytes.length - 8), b < 256 := by
      intro b hbm
      exact hb b (List.drop_subset _ _ hbm)
    have := foldl_be_lt (bytes.drop (bytes.length - 8)) 0 hmem
    rw [hlen] at this
    calc (bytes.drop (bytes.length - 8)).foldl (fun acc b => acc * 256 + b) 0
        < (0 + 1) * 256 ^ 8 := this
      _ = 2 ^ 64 := by norm_num

/-- C8: a key shorter than 8 bytes makes the hasher's write (and hence the
whole hash) fail fatally, while under the length-≥-8 precondition the fault
branch is unreachable: write and hash always succeed. -/
theorem suffix_hasher_short_key_fault (bytes : List Nat) :
    (bytes.length < 8 →
      SuffixHasher.write bytes = none ∧ suffixHash bytes = none) ∧
    (8 ≤ bytes.length →
      ∃ st, SuffixHasher.write bytes = some st ∧
        ∃ v, suffixHash bytes = some v) := by
  constructor
  · intro h
    have hne : (bytes.drop (bytes.length - 8)).length ≠ 8 := by
      rw [List.length_drop]
      omega
    refine ⟨?_, ?_⟩
    · unfold SuffixHasher.write
      rw [if_neg hne]
    · unfold suffixHash SuffixHasher.write
      rw [if_neg hne]
      rfl
  · intro h
    have hlen : (bytes.drop (bytes.length - 8)).length = 8 := by
      rw [List.length_drop]
      omega
    refine ⟨bytes.drop (bytes.length - 8), ?_, ?_⟩
    · unfold SuffixHasher.write
      simp [hlen]
    · refine ⟨SuffixHasher.finish (bytes.drop (bytes.length - 8)), ?_⟩
      unfold suffixHash SuffixHasher.write
      simp [hlen]

/-- A 9-byte key whose last 8 bytes are 2..9. -/
def keyC7 : List Nat := [1, 2, 3, 4, 5, 6, 7, 8, 9]

theorem suffix_hash_last8_witness :
    8 ≤ keyC7.length ∧
    suffixHash keyC7 = some (lastEightBE keyC7) ∧ lastEightBE keyC7 < 2 ^ 64 :=
  ⟨by decide,
   (suffix_hash_last8 keyC7 (by decide) (by decide)).1,
   (suffix_hash_last8 keyC7 (by decide) (by decide)).2⟩

/-- A malformed 3-byte key. -/
def keyC8short : List Nat := [1, 2, 3]

/-- A minimal well-formed 8-byte key. -/
def keyC8long : List Nat := [0, 1, 2, 3, 4, 5, 6, 7]

theorem suffix_hasher_short_key_fault_witness :
    (keyC8short.length < 8 ∧
     SuffixHasher.write keyC8short = none ∧ suffixHash keyC8short = none) ∧
    (8 ≤ keyC8long.length ∧
     ∃ st, SuffixHasher.write keyC8long = some st ∧
       ∃ v, suffixHash keyC8long = some v) :=
  ⟨⟨by decide, (suffix_hasher_short_key_fault keyC8short).1 (by decide)⟩,
   ⟨by decide, (suffix_hasher_short_key_fault keyC8long).2 (by decide)⟩⟩

/-- Batch application splits over append: the first segment runs first, the
second continues from its final state, and the transition lists
concatenate. -/
theorem apply_evm_state_append :
    ∀ (l₁ l₂ : List (Nat × Account)) (s s' : CacheState)
      (ts : List (Nat × TransitionAccount)),
      s.apply_evm_state (l₁ ++ l₂) = some (s', ts) →
      ∃ s₁ ts₁ ts₂, s.apply_evm_state l₁ = some (s₁, ts₁) ∧
        s₁.apply_evm_state l₂ = some (s', ts₂) ∧ ts = ts₁ ++ ts₂ := by
  intro l₁
  induction l₁ with
  | nil =>
    intro l₂ s s' ts h
    exact ⟨s, [], ts, rfl, by simpa using h, rfl⟩
  | cons hd tl ih =>
    intro l₂ s s' ts h
    obtain ⟨b, acc⟩ := hd
    rw [List.cons_append] at h
    unfold CacheState.apply_evm_state at h
    cases hsa : s.apply_account_state b acc with
    | none =>
      simp only [hsa] at h
      exact Option.noConfusion h
    | some p =>
      obtain ⟨next, tr⟩ := p
      simp only [hsa] at h
      cases hrest : next.apply_evm_state (tl ++ l₂) with
      | none =>
        simp only [hrest] at h
        exact Option.noConfusion h
      | some q =>
        obtain ⟨fin, trs⟩ := q
        simp only [hrest] at h
        rw [Option.some.injEq, Prod.mk.injEq] at h
        obtain ⟨h1, h2⟩ := h
        subst h1
        subst h2
        obtain ⟨s₁, ts₁, ts₂, hl1, hl2, heq⟩ := ih l₂ next fin trs hrest
        cases tr with
        | none =>
          refine ⟨s₁, ts₁, ts₂, ?_, hl2, ?_⟩
          · unfold CacheState.apply_evm_state
            simp [hsa, hl1]
          · simpa using heq
        | some t =>
          refine ⟨s₁, (b, t) :: ts₁, ts₂, ?_, hl2, ?_⟩
          · unfold CacheState.apply_evm_state
            simp [hsa, hl1]
          · simpa using heq

/-- The addresses of the emitted records form a sublist — in order — of the
batch's addresses. -/
theorem apply_evm_state_keys_sublist :
    ∀ (batch : List (Nat × Account)) (s s' : CacheState)
      (ts : List (Nat × TransitionAccount)),
      s.apply_evm_state batch = some (s', ts) →
      List.Sublist (ts.map Prod.fst) (batch.map Prod.fst) := by
  intro batch
  induction batch with
  | nil =>
    intro s s' ts h
    unfold CacheState.apply_evm_state at h
    rw [Option.some.injEq, Prod.mk.injEq] at h
    obtain ⟨h1, h2⟩ := h
    subst h2
    simp
  | cons hd tl ih =>
    intro s s' ts h
    obtain ⟨b, acc⟩ := hd
    unfold CacheState.apply_evm_state at h
    cases hsa : s.apply_account_state b acc with
    | none =>
      simp only [hsa] at h
      exact Option.noConfusion h
    | some p =>
      obtain ⟨next, tr⟩ := p
      simp only [hsa] at h
      cases hrest : next.apply_evm_state tl with
      | none =>
        simp only [hrest] at h
        exact Option.noConfusion h
      | some q =>
        obtain ⟨fin, trs⟩ := q
        simp only [hrest] at h
        rw [Option.some.injEq, Prod.mk.injEq] at h
        obtain ⟨h1, h2⟩ := h
        subst h2
        have IH := ih next fin trs hrest
        cases tr with
        | none => simpa using List.Sublist.cons b IH
        | some t => simpa using List.Sublist.cons₂ b IH

/-- C6: the output of `apply_evm_state` lists record addresses as an
order-preserving sublist of the batch's addresses (no reordering or
duplication; at most one record per address when the batch's addresses are
distinct), and splitting the batch at any position shows the record of that
address appears there exactly when `apply_account_state` — run at the state
reached so far — returns a record. -/
theorem transition_output_order (s s' : CacheState)
    (batch : List (Nat × Account)) (ts : List (Nat × TransitionAccount))
    (h : s.apply_evm_state batch = some (s', ts)) :
    List.Sublist (ts.map Prod.fst) (batch.map Prod.fst) ∧
    ((batch.map Prod.fst).Nodup → (ts.map Prod.fst).Nodup) ∧
    (∀ (pre post : List (Nat × Account)) (a : Nat) (acct : Account)
       (s₁ : CacheState) (ts₁ : List (Nat × TransitionAccount)),
      batch = pre ++ (a, acct) :: post →
      s.apply_evm_state pre = some (s₁, ts₁) →
      ∃ s₂ r s₃ ts₂,
        s₁.apply_account_state a acct = some (s₂, r) ∧
        s₂.apply_evm_state post = some (s₃, ts₂) ∧ s₃ = s' ∧
        ts = ts₁ ++ (match r with | some t => [(a, t)] | none => []) ++ ts₂) := by
  refine ⟨apply_evm_state_keys_sublist batch s s' ts h, ?_, ?_⟩
  · intro hnd
    exact List.Sublist.nodup (apply_evm_state_keys_sublist batch s s' ts h) hnd
  · intro pre post a acct s₁ ts₁ hsplit hpre
    subst hsplit
    obtain ⟨s₁', ts₁', ts₂', hl1, hl2, heq⟩ :=
      apply_evm_state_append pre ((a, acct) :: post) s s' ts h
    rw [hpre] at hl1
    rw [Option.some.injEq, Prod.mk.injEq] at hl1
    obtain ⟨e1, e2⟩ := hl1
    subst e1
    subst e2
    unfold CacheState.apply_evm_state at hl2
    cases hsa : s₁.apply_account_state a acct with
    | none =>
      simp only [hsa] at hl2
      exact Option.noConfusion hl2
    | some p =>
      obtain ⟨s₂, r⟩ := p
      simp only [hsa] at hl2
      cases hrest : s₂.apply_evm_state post with
      | none =>
        simp only [hrest] at hl2
        exact Option.noConfusion hl2
      | some q =>
        obtain ⟨s₃, ts₂⟩ := q
        simp only [hrest] at hl2
        rw [Option.some.injEq, Prod.mk.injEq] at hl2
        obtain ⟨f1, f2⟩ := hl2
        refine ⟨s₂, r, s₃, ts₂, rfl, hrest, f1, ?_⟩
        rw [heq, ← f2, List.append_assoc]

/-- Non-empty info for the ordering scenario. -/
def infoC6 : AccountInfo :=
  { balance := 5, nonce := 0, code_hash := KECCAK_EMPTY, code := none }

/-- A touched, plainly changed account. -/
def acctC6a : Account :=
  { info := infoC6, storage := [], touched := true
    selfdestructed := false, created := false }

/-- An untouched account (yields no record). -/
def acctC6b : Account :=
  { info := infoC6, storage := [], touched := false
    selfdestructed := false, created := false }

/-- Cache with addresses 1, 2, 3 loaded. -/
def sC6 : CacheState :=
  { accounts := [(1, CacheAccount.new_loaded infoC6 []),
                 (2, CacheAccount.new_loaded infoC6 []),
                 (3, CacheAccount.new_loaded infoC6 [])]
    contracts := [], has_state_clear := true }

/-- Batch touching 1 and 3 but not 2. -/
def batchC6 : List (Nat × Account) := [(1, acctC6a), (2, acctC6b), (3, acctC6a)]

/-- Result of applying the ordering-scenario batch. -/
def r6 : CacheState × List (Nat × TransitionAccount) :=
  (sC6.apply_evm_state batchC6).getD (sC6, [])

theorem transition_output_order_witness :
    sC6.apply_evm_state batchC6 = some (r6.1, r6.2) ∧
    List.Sublist (r6.2.map Prod.fst) (batchC6.map Prod.fst) ∧
    ((batchC6.map Prod.fst).Nodup → (r6.2.map Prod.fst).Nodup) ∧
    r6.2.map Prod.fst = [1, 3] :=
  ⟨rfl,
   (transition_output_order sC6 r6.1 batchC6 r6.2 rfl).1,
   (transition_output_order sC6 r6.1 batchC6 r6.2 rfl).2.1,
   by decide⟩
